import Mathlib

/-!
Verification of the Chack conversational-agent gateway core.

Shallow embedding of the conversation/memory/retry/session logic of the
repository (`src/chack`): the short-term memory window (`memory.py`,
`_SafeSummaryBufferMemory.prune`), the long-term memory store
(`long_term_memory.py`), cost estimation (`pricing.py`), the retry loop,
idle-timeout session lifecycle and message chunking
(`telegram_adapter.py` / `discord_adapter.py`), and direct-message
authorization (`TelegramBot._user_allowed`).

Python strings are modelled as `List Char` where character-level
operations (`rstrip`, slicing, `splitlines`) matter, and as `String`
where they are opaque. Python `int`/`float` arithmetic is modelled with
`Int`/`ℚ`. A fallible external call (the summarization collaborator) is
modelled as a function returning `Option`: `none` models an exception or
an empty result.
-/

namespace Chack

/-! ### Python string primitives -/

/-- Characters treated as whitespace by Python `str.strip` / `str.rstrip`
(ASCII range, which covers the strings this program manipulates). -/
def pyIsSpace (c : Char) : Bool :=
  c = ' ' || c = '\t' || c = '\n' || c = '\x0d' ||
  c = Char.ofNat 11 || c = Char.ofNat 12

/-- Python `str.rstrip()`: drop trailing whitespace. -/
def pyRstrip (s : List Char) : List Char :=
  (s.reverse.dropWhile pyIsSpace).reverse

/-- Python `str.strip()`: drop leading and trailing whitespace. -/
def pyStrip (s : List Char) : List Char :=
  pyRstrip (s.dropWhile pyIsSpace)

/-! ### `long_term_memory.py` : `save_long_term_memory`

```python
def save_long_term_memory(path: str, content: str, max_chars: int) -> None:
    if max_chars > 0 and len(content) > max_chars:
        content = content[:max_chars].rstrip()
    with open(path, "w", encoding="utf-8") as handle:
        handle.write(content)
```
The embedding returns the text written to the file. -/
def save_long_term_memory (content : List Char) (max_chars : Int) : List Char :=
  if max_chars > 0 ∧ (content.length : Int) > max_chars then
    pyRstrip (content.take max_chars.toNat)
  else
    content

/-! ### `pricing.py` : `estimate_cost` -/

/-- Per-model rates, per million tokens (`ModelPricing` dataclass). -/
structure ModelPricing where
  input : ℚ
  cached_input : ℚ
  output : ℚ
deriving Repr, DecidableEq

/-- `PricingTable` dataclass: mapping from model name to rates. -/
structure PricingTable where
  models : List (String × ModelPricing)
deriving Repr, DecidableEq

/--
```python
def estimate_cost(pricing, model, prompt_tokens, completion_tokens,
                  cached_prompt_tokens=0):
    if model not in pricing.models:
        return None
    rates = pricing.models[model]
    billable_prompt = max(prompt_tokens - cached_prompt_tokens, 0)
    total = (billable_prompt * rates.input
             + cached_prompt_tokens * rates.cached_input
             + completion_tokens * rates.output)
    return total / 1_000_000.0
```
-/
def estimate_cost (pricing : PricingTable) (model : String)
    (prompt_tokens completion_tokens : Int) (cached_prompt_tokens : Int := 0) :
    Option ℚ :=
  match pricing.models.lookup model with
  | none => none
  | some rates =>
    let billable_prompt : Int := max (prompt_tokens - cached_prompt_tokens) 0
    let total : ℚ :=
      (billable_prompt : ℚ) * rates.input
        + (cached_prompt_tokens : ℚ) * rates.cached_input
        + (completion_tokens : ℚ) * rates.output
    some (total / 1000000)

/-! ### `telegram_adapter.py` : `TelegramBot._user_allowed`

```python
def _user_allowed(self, user_id, username):
    if not self.dm_user_allow and not self.dm_username_allow \
            and not self.dm_username_allow_regex:
        return True
    if user_id in self.dm_user_allow:
        return True
    if username:
        uname = username.lower()
        if uname in self.dm_username_allow:
            return True
        for pattern in self.dm_username_allow_regex:
            if pattern.search(uname):
                return True
    return False
```
A compiled regex is modelled as its matcher function `String → Bool`. -/

structure DmAllowLists where
  dm_user_allow : List Int
  dm_username_allow : List String
  dm_username_allow_regex : List (String → Bool)

/-- Python `str.lower()` (ASCII behaviour). -/
def pyLower (s : String) : String := s.map Char.toLower

def user_allowed (b : DmAllowLists) (user_id : Int) (username : Option String) :
    Bool :=
  if b.dm_user_allow.isEmpty && b.dm_username_allow.isEmpty &&
      b.dm_username_allow_regex.isEmpty then
    true
  else if user_id ∈ b.dm_user_allow then
    true
  else
    match username with
    | none => false
    | some u =>
      if u = "" then false
      else
        let uname := pyLower u
        if uname ∈ b.dm_username_allow then true
        else b.dm_username_allow_regex.any (fun pattern => pattern uname)

/-! ### Retry loop (`TelegramBot._run_agent` / `DiscordBot._run_agent`)

```python
for attempt in range(max_attempts):
    attempt_text = text
    if attempt and min_tools_used > 0:
        attempt_text = f"{text}\n\nIMPORTANT: Use at least ..."
    with get_openai_callback() as attempt_cb:
        result = await asyncio.to_thread(executor.invoke, {"input": attempt_text})
    cb = attempt_cb
    steps = result.get("intermediate_steps", [])
    if min_tools_used <= 0 or len(steps) >= min_tools_used:
        break
else:
    raise RuntimeError(f"Minimum tool usage requirement not met: ...")
```
The agent stub is a function from the attempt index to the number of tool
steps it reports on that attempt. The embedding records how many attempts
were performed and whether the loop accepted a result (`some steps`) or
raised (`none`). -/

structure RetryOutcome where
  attempts : Nat
  accepted : Option Nat
deriving Repr, DecidableEq

def runAgentLoopFrom (min_tools_used max_attempts : Nat)
    (agentSteps : Nat → Nat) : Nat → Nat → RetryOutcome
  | _, 0 => { attempts := 0, accepted := none }
  | attempt, fuel + 1 =>
    let steps := agentSteps attempt
    if min_tools_used ≤ 0 ∨ steps ≥ min_tools_used then
      { attempts := 1, accepted := some steps }
    else
      let rest := runAgentLoopFrom min_tools_used max_attempts agentSteps
        (attempt + 1) fuel
      { rest with attempts := rest.attempts + 1 }

/-- The bounded retry loop of `_run_agent`: attempts indexed `0, 1, ...`
up to `max_attempts`; accepts as soon as the minimum tool count is met,
raises (`accepted = none`) when the range is exhausted. -/
def runAgentLoop (min_tools_used max_attempts : Nat) (agentSteps : Nat → Nat) :
    RetryOutcome :=
  runAgentLoopFrom min_tools_used max_attempts agentSteps 0 max_attempts

/-! ### `memory.py` : `_SafeSummaryBufferMemory.prune`

```python
def _message_counter(value) -> int:
    if isinstance(value, list):
        return len(value)
    return len(str(value).splitlines())

def prune(self) -> None:
    buffer = self.chat_memory.messages
    curr_buffer_length = _message_counter(buffer)
    if curr_buffer_length > self.trigger_limit:
        pruned_memory = []
        while curr_buffer_length > self.target_limit and buffer:
            pruned_memory.append(buffer.pop(0))
            curr_buffer_length = _message_counter(buffer)
        if pruned_memory:
            self.moving_summary_buffer = self.predict_new_summary(
                pruned_memory, self.moving_summary_buffer)
```

`buffer.pop(0)` mutates `self.chat_memory.messages` in place, so the
window has already lost the pruned messages by the time
`predict_new_summary` is invoked. The summarizer is modelled as a
function returning `Option String`; `none` models the external call
raising. `prune` returns `.ok` on the success path and `.error` carrying
the object's state at the point the exception propagates, together with
the number of summarizer invocations made. -/

/-- A role-tagged chat message. -/
structure Message where
  role : String
  content : String
deriving Repr, DecidableEq

/-- `_message_counter` applied to a message list (`isinstance(value, list)`
branch). -/
def message_counter (value : List Message) : Nat := value.length

/-- The state of one `_SafeSummaryBufferMemory` object. -/
structure Window where
  messages : List Message
  moving_summary_buffer : String
  trigger_limit : Nat
  target_limit : Nat
deriving Repr, DecidableEq

/-- The summarization collaborator (`predict_new_summary`): previous
summary and pruned messages in, new summary out; `none` = the call raised
or is otherwise unusable. -/
def Summarizer : Type := List Message → String → Option String

/-- The `while curr_buffer_length > self.target_limit and buffer` loop:
returns `(pruned_memory, buffer)` after the loop. -/
def pruneLoop (target_limit : Nat) (pruned_memory : List Message) :
    List Message → List Message × List Message
  | [] => (pruned_memory, [])
  | m :: rest =>
    if message_counter (m :: rest) > target_limit then
      pruneLoop target_limit (pruned_memory ++ [m]) rest
    else
      (pruned_memory, m :: rest)

/-- `prune`, returning the resulting object state (both on success and at
the point an exception from the summarizer propagates) and the number of
summarizer calls performed. -/
def prune (summarize : Summarizer) (w : Window) :
    Except Window Window × Nat :=
  if message_counter w.messages > w.trigger_limit then
    let pr := pruneLoop w.target_limit [] w.messages
    if pr.1 ≠ [] then
      match summarize pr.1 w.moving_summary_buffer with
      | some s =>
        (.ok { w with messages := pr.2, moving_summary_buffer := s }, 1)
      | none =>
        (.error { w with messages := pr.2 }, 1)
    else
      (.ok { w with messages := pr.2 }, 0)
  else
    (.ok w, 0)

/-- The object state left behind by `prune`, whether or not the
summarizer raised (the message buffer is mutated in place either way). -/
def pruneState (summarize : Summarizer) (w : Window) : Window :=
  match (prune summarize w).1 with
  | .ok w' => w'
  | .error w' => w'

/-- `chat_memory.add_message`: append one message at the tail. -/
def appendMessage (w : Window) (m : Message) : Window :=
  { w with messages := w.messages ++ [m] }

/-- One memory turn as driven by the executor: append a message, then run
`prune` (LangChain's `save_context` calls `prune` after appending). -/
def appendAndPrune (summarize : Summarizer) (w : Window) (m : Message) :
    Window :=
  pruneState summarize (appendMessage w m)

/-- A whole sequence of appended messages, pruning after each append. -/
def runWindow (summarize : Summarizer) (w : Window) (msgs : List Message) :
    Window :=
  msgs.foldl (appendAndPrune summarize) w

/-! ### Idle-timeout session lifecycle
(`TelegramBot._run_agent` prologue + `_get_executor`)

```python
reset_minutes = self.config.telegram.memory_reset_minutes
if reset_minutes and reset_minutes > 0:
    last_reply = self._last_bot_reply_at.get(chat_id)
    if last_reply and (time.time() - last_reply) > reset_minutes * 60:
        await self._finalize_long_term_memory(chat_id)
        self._executors.pop(chat_id, None)
        self._last_bot_reply_at.pop(chat_id, None)
executor = self._get_executor(chat_id)

def _get_executor(self, chat_id):
    executor = self._executors.get(chat_id)
    if executor is None:
        ...
        executor = build_agent(...)
        self._executors[chat_id] = executor
    return executor
```

State is modelled per chat id: the stored executor (identified by a
numeric id drawn from a fresh-id counter, so "brand-new" is visible) and
the recorded last-reply timestamp. `time.time()` is the `now` argument
(seconds). Python truthiness of `last_reply` (a strictly positive float
when recorded) is `t ≠ 0`. -/

structure ChatState where
  executor : Option Nat
  last_bot_reply_at : Option Int
  nextExecutorId : Nat
deriving Repr, DecidableEq

/-- What the prologue of `_run_agent` did: whether
`_finalize_long_term_memory` ran (with eviction), and whether
`_get_executor` constructed a brand-new executor. -/
structure PrologueTrace where
  state : ChatState
  finalized : Bool
  createdNew : Bool
deriving Repr, DecidableEq

def getExecutor (st : ChatState) : ChatState × Nat × Bool :=
  match st.executor with
  | some e => (st, e, false)
  | none =>
    ({ st with executor := some st.nextExecutorId,
               nextExecutorId := st.nextExecutorId + 1 },
     st.nextExecutorId, true)

def runAgentPrologue (reset_minutes : Int) (now : Int) (st : ChatState) :
    PrologueTrace :=
  let (st, finalized) :=
    if reset_minutes ≠ 0 ∧ reset_minutes > 0 then
      match st.last_bot_reply_at with
      | some last_reply =>
        if last_reply ≠ 0 ∧ now - last_reply > reset_minutes * 60 then
          ({ st with executor := none, last_bot_reply_at := none }, true)
        else
          (st, false)
      | none => (st, false)
    else
      (st, false)
  let (st, _, createdNew) := getExecutor st
  { state := st, finalized := finalized, createdNew := createdNew }

/-! ### `TelegramBot._split_for_telegram`

```python
@staticmethod
def _split_for_telegram(text: str, limit: int = 3500) -> List[str]:
    lines = text.splitlines()
    chunks, current, in_code = [], [], False

    def flush():
        nonlocal current, in_code
        if not current:
            return
        if in_code:
            current.append("```")
        chunks.append("\n".join(current))
        current = []
        if in_code:
            current.append("```")

    for line in lines:
        if line.strip().startswith("```"):
            in_code = not in_code
        candidate = current + [line]
        candidate_len = len("\n".join(candidate))
        if candidate_len > limit and current:
            flush()
            candidate = current + [line]
        if len("\n".join(candidate)) > limit and not current:
            chunk_size = max(500, limit - 200)
            for i in range(0, len(line), chunk_size):
                chunks.append(line[i : i + chunk_size])
            continue
        current = candidate

    if current:
        if in_code:
            current.append("```")
        chunks.append("\n".join(current))
    return chunks
```
Text and lines are `List Char`. -/

/-- The backquote character (0x60). -/
def backquote : Char := Char.ofNat 96

/-- A code-fence line marker. -/
def fenceLine : List Char := [backquote, backquote, backquote]

/-- `line.strip().startswith("```")`. -/
def startsWithFence (line : List Char) : Bool :=
  (pyStrip line).take 3 = fenceLine

/-- Python `str.splitlines()` on the line boundaries this program
produces and consumes (`\n`, `\r\n`, `\r`): accumulator-based scan,
trailing line emitted only when non-empty. -/
def pySplitlinesAux : List Char → List Char → List (List Char)
  | [], acc => if acc.isEmpty then [] else [acc.reverse]
  | '\x0d' :: '\n' :: rest, acc => acc.reverse :: pySplitlinesAux rest []
  | '\x0d' :: rest, acc => acc.reverse :: pySplitlinesAux rest []
  | '\n' :: rest, acc => acc.reverse :: pySplitlinesAux rest []
  | c :: rest, acc => pySplitlinesAux rest (c :: acc)

def pySplitlines (s : List Char) : List (List Char) :=
  pySplitlinesAux s []

/-- `"\n".join(lines)`. -/
def joinLines : List (List Char) → List Char
  | [] => []
  | [l] => l
  | l :: l' :: rest => l ++ '\n' :: joinLines (l' :: rest)

/-- The blunt fallback `for i in range(0, len(line), chunk_size)`. -/
def bluntSlices (chunk_size : Nat) (line : List Char) : List (List Char) :=
  if h : line = [] ∨ chunk_size = 0 then []
  else line.take chunk_size :: bluntSlices chunk_size (line.drop chunk_size)
termination_by line.length
decreasing_by
  simp only [List.length_drop]
  rcases line with _ | ⟨c, l⟩
  · exact absurd (Or.inl rfl) h
  · simp only [List.length_cons]
    omega

/-- Loop state of `_split_for_telegram`. -/
structure SplitState where
  chunks : List (List Char)
  current : List (List Char)
  inCode : Bool
deriving Repr, DecidableEq

/-- The nested `flush()`. -/
def flushState (st : SplitState) : SplitState :=
  if st.current = [] then st
  else
    { chunks :=
        st.chunks ++
          [joinLines (if st.inCode then st.current ++ [fenceLine]
                      else st.current)]
      current := if st.inCode then [fenceLine] else []
      inCode := st.inCode }

/-- The tail of the loop body, after the flush decision: the blunt
fallback for a long single line (`candidate = st.current ++ [line]`
inlined), and the `current = candidate` update. -/
def splitStepTail (limit : Nat) (st : SplitState) (line : List Char) :
    SplitState :=
  if (joinLines (st.current ++ [line])).length > limit ∧ st.current = []
  then
    { st with chunks := st.chunks ++ bluntSlices (max 500 (limit - 200)) line }
  else
    { st with current := st.current ++ [line] }

/-- The body of the `for line in lines` loop after the fence toggle:
the candidate-length check with `flush()`, then the tail. -/
def splitStepCore (limit : Nat) (st : SplitState) (line : List Char) :
    SplitState :=
  splitStepTail limit
    (if (joinLines (st.current ++ [line])).length > limit ∧ st.current ≠ []
     then flushState st else st)
    line

/-- One iteration of the `for line in lines` loop: toggle `in_code` on a
fence line, then run the loop body. -/
def splitStep (limit : Nat) (st : SplitState) (line : List Char) :
    SplitState :=
  splitStepCore limit
    (if startsWithFence line then { st with inCode := !st.inCode } else st)
    line

def split_for_telegram (text : List Char) (limit : Nat) : List (List Char) :=
  let st := (pySplitlines text).foldl (splitStep limit)
    { chunks := [], current := [], inCode := false }
  if st.current ≠ [] then
    st.chunks ++
      [joinLines (if st.inCode then st.current ++ [fenceLine] else st.current)]
  else
    st.chunks

/-- Number of fence-toggle lines a rendered fragment contains. -/
def fenceCount (lines : List (List Char)) : Nat :=
  lines.countP (fun l => startsWithFence l)

/-- A rendered fragment is independently well-formed when re-splitting it
into lines yields an even number of fence toggles. -/
def chunkBalanced (chunk : List Char) : Prop :=
  Even (fenceCount (pySplitlines chunk))

/-- Loop invariant of `_split_for_telegram` when no line is long enough
to overflow a fragment on its own: the pending `current` buffer joins to
at most `limit` characters, and every emitted chunk is at most
`limit + 4` characters (an injected closing fence adds at most 4). -/
def SplitInvariant (limit : Nat) (st : SplitState) : Prop :=
  (joinLines st.current).length ≤ limit ∧
  ∀ c ∈ st.chunks, c.length ≤ limit + 4

/-! ## Theorems -/

/-! ### C3: retry loop exhaustion -/

/-- C3. For the retry loop invoked with `min_tools = 3` and
`max_attempts = 2` against an agent stub that always reports exactly 1
tool step, the invocation performs exactly 2 agent attempts and then
fails with the minimum-tool-usage condition (`accepted = none` models the
raised `RuntimeError`, not a silently accepted answer). -/
theorem retry_min_tools_exhaustion (f : Nat → Nat) (hf : ∀ n, f n = 1) :
    runAgentLoop 3 2 f = { attempts := 2, accepted := none } := by
  simp [runAgentLoop, runAgentLoopFrom, hf]

/-- Witness for C3 at the constant stub reporting 1 tool step. -/
theorem retry_min_tools_exhaustion_witness :
    runAgentLoop 3 2 (fun _ => 1) = { attempts := 2, accepted := none } :=
  retry_min_tools_exhaustion (fun _ => 1) (fun _ => rfl)

/-! ### C5 / C10: long-term memory save truncation -/

/-- A 25-character content whose 10th character is a space. -/
def c5content : List Char := "aaaaaaaaa bbbbbbbbbbbbbbb".toList

/-- C5, counterexample. Saving content of length 25 with `max_chars = 10`
does not write exactly the first 10 characters: `content[:max_chars]` is
post-processed with `.rstrip()`, which here drops the trailing space and
writes only 9 characters. -/
theorem save_not_exact_prefix_counterexample :
    c5content.length = 25 ∧
    save_long_term_memory c5content 10 ≠ c5content.take 10 ∧
    (save_long_term_memory c5content 10).length = 9 := by
  refine ⟨by decide, by decide, by decide⟩

/-- Every list is its own rstrip followed by the stripped whitespace. -/
theorem pyRstrip_append (l : List Char) :
    l = pyRstrip l ++ (l.reverse.takeWhile pyIsSpace).reverse := by
  unfold pyRstrip
  rw [← List.reverse_append, List.takeWhile_append_dropWhile,
    List.reverse_reverse]

/-- If the last character is not whitespace, rstrip is the identity. -/
theorem pyRstrip_of_last_not_space (l : List Char) (c : Char)
    (hc : l.getLast? = some c) (hs : pyIsSpace c = false) :
    pyRstrip l = l := by
  unfold pyRstrip
  rcases hr : l.reverse with _ | ⟨c', tl⟩
  · simp only [List.reverse_eq_nil_iff] at hr
    subst hr
    simp at hc
  · have hhead : l.reverse.head? = some c' := by rw [hr]; rfl
    rw [List.head?_reverse] at hhead
    rw [hc] at hhead
    obtain rfl : c = c' := by injection hhead
    rw [List.dropWhile_cons, if_neg (by simp [hs]), ← hr,
      List.reverse_reverse]

/-- C5, amended. For content strictly longer than a positive `max_chars`,
the saved text is the first `max_chars` characters with trailing
whitespace removed: it is a prefix of the first `max_chars` characters,
and equals them exactly when the truncated prefix ends in a
non-whitespace character. -/
theorem save_writes_rstripped_truncation (content : List Char)
    (max_chars : Int) (h1 : 0 < max_chars)
    (h2 : max_chars < (content.length : Int)) :
    save_long_term_memory content max_chars =
      pyRstrip (content.take max_chars.toNat) ∧
    (∃ t, content.take max_chars.toNat =
        save_long_term_memory content max_chars ++ t) ∧
    (∀ c, (content.take max_chars.toNat).getLast? = some c →
        pyIsSpace c = false →
        save_long_term_memory content max_chars =
          content.take max_chars.toNat) := by
  have hsave : save_long_term_memory content max_chars =
      pyRstrip (content.take max_chars.toNat) := by
    unfold save_long_term_memory
    rw [if_pos ⟨h1, by omega⟩]
  refine ⟨hsave, ⟨(content.take max_chars.toNat).reverse.takeWhile
    pyIsSpace |>.reverse, ?_⟩, fun c hc hs => ?_⟩
  · rw [hsave]
    exact pyRstrip_append _
  · rw [hsave, pyRstrip_of_last_not_space _ c hc hs]

/-- Witness for C5 (amended): `max_chars = 10`, content of length 25 with
a non-space 10th character saves exactly the first 10 characters. -/
theorem save_truncates_witness :
    save_long_term_memory ("abcdefghijklmnopqrstuvwxy".toList) 10 =
      ("abcdefghijklmnopqrstuvwxy".toList).take 10 :=
  (save_writes_rstripped_truncation _ 10 (by decide) (by decide)).2.2
    'j' (by decide) (by decide)

/-- C10. A non-positive `max_chars` disables the character budget: the
full content is written with no truncation, whatever its length. -/
theorem save_nonpositive_budget_no_truncation (content : List Char)
    (max_chars : Int) (h : max_chars ≤ 0) :
    save_long_term_memory content max_chars = content := by
  unfold save_long_term_memory
  rw [if_neg]
  rintro ⟨h1, -⟩
  omega

/-- Witness for C10 at `max_chars = 0` and `max_chars = -7` on a content
of length 25. -/
theorem save_nonpositive_budget_witness :
    save_long_term_memory c5content 0 = c5content ∧
    save_long_term_memory c5content (-7) = c5content :=
  ⟨save_nonpositive_budget_no_truncation c5content 0 (by decide),
   save_nonpositive_budget_no_truncation c5content (-7) (by decide)⟩

/-! ### C6: cost estimation -/

/-- C6. Cost estimation returns `none` for every model absent from the
pricing table; for a present model it returns
`(max(prompt − cached, 0)·input + cached·cached_rate + completion·output) / 1e6`;
in particular with rates input=2, cached=1, output=4 and tokens
prompt=100, completion=50, cached=30 it yields
`(70·2 + 30·1 + 50·4) / 1_000_000`. -/
theorem estimate_cost_correct :
    (∀ (pricing : PricingTable) (model : String) (p c q : Int),
        pricing.models.lookup model = none →
        estimate_cost pricing model p c q = none) ∧
    (∀ (pricing : PricingTable) (model : String) (r : ModelPricing)
        (p c q : Int),
        pricing.models.lookup model = some r →
        estimate_cost pricing model p c q =
          some ((((max (p - q) 0 : Int) : ℚ) * r.input
            + (q : ℚ) * r.cached_input + (c : ℚ) * r.output) / 1000000)) ∧
    estimate_cost ⟨[("m", ⟨2, 1, 4⟩)]⟩ "m" 100 50 30 =
      some (((70 * 2 + 30 * 1 + 50 * 4 : ℚ)) / 1000000) := by
  refine ⟨fun pricing model p c q h => ?_, fun pricing model r p c q h => ?_,
    ?_⟩
  · unfold estimate_cost
    rw [h]
  · unfold estimate_cost
    rw [h]
  · simp only [estimate_cost, List.lookup]
    norm_num

/-- Witness for C6: an unknown model yields `none`, and a present model
yields the documented formula. -/
theorem estimate_cost_witness :
    estimate_cost ⟨[("m", ⟨2, 1, 4⟩)]⟩ "unknown-model" 100 50 0 = none ∧
    estimate_cost ⟨[("m", ⟨2, 1, 4⟩)]⟩ "m" 100 50 30 =
      some ((((max (100 - 30 : Int) 0 : Int) : ℚ) * 2
        + (30 : ℚ) * 1 + (50 : ℚ) * 4) / 1000000) :=
  ⟨estimate_cost_correct.1 ⟨[("m", ⟨2, 1, 4⟩)]⟩ "unknown-model" 100 50 0
      (by rfl),
   estimate_cost_correct.2.1 ⟨[("m", ⟨2, 1, 4⟩)]⟩ "m" ⟨2, 1, 4⟩ 100 50 30
      (by rfl)⟩

/-! ### C8: direct-message authorization -/

/-- C8. When the id allow-list, the username allow-list and the
username-regex allow-list are all empty, every sender is allowed; when the
id allow-list is non-empty and the other two are empty, a sender whose id
is not listed is denied (with empty username lists, no username matches
anything). -/
theorem user_allowed_spec (b : DmAllowLists) :
    (b.dm_user_allow.isEmpty = true → b.dm_username_allow.isEmpty = true →
        b.dm_username_allow_regex.isEmpty = true →
        ∀ (uid : Int) (uname : Option String),
          user_allowed b uid uname = true) ∧
    (b.dm_user_allow.isEmpty = false → b.dm_username_allow.isEmpty = true →
        b.dm_username_allow_regex.isEmpty = true →
        ∀ (uid : Int) (uname : Option String), uid ∉ b.dm_user_allow →
          user_allowed b uid uname = false) := by
  constructor
  · intro h1 h2 h3 uid uname
    unfold user_allowed
    rw [if_pos (by simp [h1, h2, h3])]
  · intro h1 h2 h3 uid uname hid
    rw [List.isEmpty_iff] at h2 h3
    unfold user_allowed
    rw [if_neg (by rw [h1]; simp), if_neg hid]
    rcases uname with _ | u
    · rfl
    · by_cases hu : u = "" <;> simp [hu, h2, h3]

/-- Witness for C8: all lists empty allows an arbitrary sender; a
non-empty id list not containing the sender denies them. -/
theorem user_allowed_witness :
    user_allowed ⟨[], [], []⟩ 5 none = true ∧
    user_allowed ⟨[1, 2], [], []⟩ 5 (some "Bob") = false :=
  ⟨(user_allowed_spec ⟨[], [], []⟩).1 rfl rfl rfl 5 none,
   (user_allowed_spec ⟨[1, 2], [], []⟩).2 rfl rfl rfl 5 (some "Bob")
      (by decide)⟩

/-! ### C4: idle-timeout session lifecycle -/

/-- C4. With `memory_reset_minutes = 30` and a session whose last bot
reply was recorded at `t0` (a real timestamp, hence positive) and whose
executor id `e` predates the fresh-id counter `nid`: a message arriving
more than 30 minutes after `t0` finalizes long-term memory, evicts the
session, and creates a brand-new executor (`nid`, distinct from `e`);
a message arriving at most 30 minutes after `t0` reuses the existing
session with no finalize and no evict. -/
theorem idle_timeout_session_lifecycle (t0 : Int) (e nid : Nat)
    (h0 : 0 < t0) (he : e < nid) :
    (∀ now : Int, now - t0 > 30 * 60 →
        runAgentPrologue 30 now ⟨some e, some t0, nid⟩ =
          ⟨⟨some nid, none, nid + 1⟩, true, true⟩ ∧ nid ≠ e) ∧
    (∀ now : Int, ¬ now - t0 > 30 * 60 →
        runAgentPrologue 30 now ⟨some e, some t0, nid⟩ =
          ⟨⟨some e, some t0, nid⟩, false, false⟩) := by
  constructor
  · intro now hnow
    refine ⟨?_, by omega⟩
    unfold runAgentPrologue
    rw [if_pos (by norm_num)]
    simp only
    rw [if_pos ⟨by omega, hnow⟩]
    rfl
  · intro now hnow
    unfold runAgentPrologue
    rw [if_pos (by norm_num)]
    simp only
    rw [if_neg (by rintro ⟨-, hgt⟩; exact hnow hgt)]
    rfl

/-- Witness for C4 at `t0 = 100`, executor 7, fresh id 8: a message at
`t0 + 31·60` finalizes, evicts and recreates; one at `t0 + 10·60` does
not. -/
theorem idle_timeout_session_lifecycle_witness :
    (runAgentPrologue 30 (100 + 31 * 60) ⟨some 7, some 100, 8⟩ =
        ⟨⟨some 8, none, 9⟩, true, true⟩ ∧ 8 ≠ 7) ∧
    runAgentPrologue 30 (100 + 10 * 60) ⟨some 7, some 100, 8⟩ =
      ⟨⟨some 7, some 100, 8⟩, false, false⟩ :=
  ⟨(idle_timeout_session_lifecycle 100 7 8 (by decide) (by decide)).1
      (100 + 31 * 60) (by decide),
   (idle_timeout_session_lifecycle 100 7 8 (by decide) (by decide)).2
      (100 + 10 * 60) (by decide)⟩

/-! ### C2: summarization failure during compaction -/

/-- C2, code behaviour at the failing input. The claim asks that a failed
summarization leave the window unchanged, but `prune` pops the excess
messages off `chat_memory.messages` in place *before* invoking
`predict_new_summary`: with `trigger_limit = target_limit = 1`, a window
`[human "a", ai "b"]` and a summarizer that raises, the exception
propagates with the window already reduced to `[ai "b"]` — the message
`human "a"` is discarded irrecoverably, contradicting the claim. -/
theorem prune_discards_before_summarizing :
    prune (fun _ _ => none)
        { messages := [⟨"human", "a"⟩, ⟨"ai", "b"⟩],
          moving_summary_buffer := "S0", trigger_limit := 1,
          target_limit := 1 } =
      (.error { messages := [⟨"ai", "b"⟩], moving_summary_buffer := "S0",
                trigger_limit := 1, target_limit := 1 }, 1) ∧
    (⟨"human", "a"⟩ : Message) ∉ [(⟨"ai", "b"⟩ : Message)] := by
  exact ⟨rfl, by decide⟩

/-! ### C9: empty excess makes no summarization call -/

/-- The pruned accumulator only ever grows. -/
theorem pruneLoop_fst_extends (t : Nat) :
    ∀ (l p : List Message), ∃ q, (pruneLoop t p l).1 = p ++ q
  | [], p => ⟨[], by simp [pruneLoop]⟩
  | m :: rest, p => by
    unfold pruneLoop
    by_cases h : message_counter (m :: rest) > t
    · rw [if_pos h]
      obtain ⟨q, hq⟩ := pruneLoop_fst_extends t rest (p ++ [m])
      exact ⟨m :: q, by simpa using hq⟩
    · rw [if_neg h]
      exact ⟨[], by simp⟩

/-- If the loop pruned nothing, the buffer is untouched. -/
theorem pruneLoop_fst_nil (t : Nat) (l : List Message)
    (h : (pruneLoop t [] l).1 = []) : pruneLoop t [] l = ([], l) := by
  rcases l with _ | ⟨m, rest⟩
  · rfl
  · unfold pruneLoop at h ⊢
    by_cases hc : message_counter (m :: rest) > t
    · rw [if_pos hc] at h
      simp only [List.nil_append] at h
      obtain ⟨q, hq⟩ := pruneLoop_fst_extends t rest [m]
      rw [hq] at h
      simp at h
    · rw [if_neg hc]

/-- C9. Whenever compaction runs (the window exceeds the trigger) and the
set of messages removed from the head is empty, no call to the external
summarization collaborator is made (call count 0, result independent of
the summarizer) and the window — its running summary included — is left
unchanged. -/
theorem prune_empty_excess_no_call (w : Window) (s : Summarizer)
    (htrig : w.trigger_limit < message_counter w.messages)
    (hemp : (pruneLoop w.target_limit [] w.messages).1 = []) :
    prune s w = (.ok w, 0) := by
  unfold prune
  rw [if_pos htrig]
  simp only [pruneLoop_fst_nil w.target_limit w.messages hemp]
  rw [if_neg (by simp)]

/-- Witness for C9: `trigger_limit = 0 < 1 = len`, `target_limit = 5`, so
compaction triggers but removes nothing; no summarizer call is made. -/
theorem prune_empty_excess_no_call_witness :
    prune (fun _ _ => none)
        { messages := [⟨"human", "x"⟩], moving_summary_buffer := "S",
          trigger_limit := 0, target_limit := 5 } =
      (.ok { messages := [⟨"human", "x"⟩], moving_summary_buffer := "S",
             trigger_limit := 0, target_limit := 5 }, 0) :=
  prune_empty_excess_no_call _ _ (by decide) (by decide)

/-! ### C1: short-term window never exceeds the trigger -/

/-- Length of the buffer the prune loop leaves behind. -/
theorem pruneLoop_snd_length (t : Nat) :
    ∀ (l p : List Message),
      (pruneLoop t p l).2.length = if t < l.length then t else l.length
  | [], p => by simp [pruneLoop]
  | m :: rest, p => by
    unfold pruneLoop
    by_cases h : message_counter (m :: rest) > t
    · rw [if_pos h, pruneLoop_snd_length t rest (p ++ [m])]
      unfold message_counter at h
      simp only [List.length_cons] at h ⊢
      split_ifs <;> omega
    · rw [if_neg h]
      unfold message_counter at h
      simp only [List.length_cons] at h ⊢
      rw [if_neg (by omega)]

/-- `prune` leaves the limits untouched and, above the trigger, replaces
the message buffer with what the prune loop left — whether or not the
summarizer raised. -/
theorem pruneState_fields (s : Summarizer) (w : Window) :
    (pruneState s w).messages =
      (if message_counter w.messages > w.trigger_limit
       then (pruneLoop w.target_limit [] w.messages).2
       else w.messages) ∧
    (pruneState s w).trigger_limit = w.trigger_limit ∧
    (pruneState s w).target_limit = w.target_limit := by
  simp only [pruneState, prune]
  by_cases h1 : message_counter w.messages > w.trigger_limit
  · rw [if_pos h1, if_pos h1]
    by_cases h2 : (pruneLoop w.target_limit [] w.messages).1 = []
    · rw [if_neg (by simp [h2])]
      exact ⟨rfl, rfl, rfl⟩
    · rw [if_pos h2]
      rcases hsum : s (pruneLoop w.target_limit [] w.messages).1
          w.moving_summary_buffer with _ | str <;>
        exact ⟨rfl, rfl, rfl⟩
  · rw [if_neg h1, if_neg h1]
    exact ⟨rfl, rfl, rfl⟩

/-- `prune` leaves the configured limits untouched. -/
theorem pruneState_limits (s : Summarizer) (w : Window) :
    (pruneState s w).trigger_limit = w.trigger_limit ∧
    (pruneState s w).target_limit = w.target_limit :=
  (pruneState_fields s w).2

/-- Message count after `prune`, whether or not the summarizer raised:
untouched below the trigger, cut to the target above it. -/
theorem pruneState_messages_length (s : Summarizer) (w : Window) :
    (pruneState s w).messages.length =
      if w.trigger_limit < w.messages.length then
        (if w.target_limit < w.messages.length then w.target_limit
         else w.messages.length)
      else w.messages.length := by
  rw [(pruneState_fields s w).1]
  unfold message_counter
  by_cases h1 : w.trigger_limit < w.messages.length
  · rw [if_pos h1, if_pos h1, pruneLoop_snd_length]
  · rw [if_neg h1, if_neg h1]

/-- One append-and-prune step keeps the window at or below the trigger. -/
theorem appendAndPrune_length_le (s : Summarizer) (w : Window)
    (m : Message) (h2 : w.target_limit ≤ w.trigger_limit)
    (hw : w.messages.length ≤ w.trigger_limit) :
    (appendAndPrune s w m).messages.length ≤ w.trigger_limit := by
  unfold appendAndPrune
  rw [pruneState_messages_length]
  unfold appendMessage
  simp only [List.length_append, List.length_cons, List.length_nil]
  split_ifs <;> omega

/-- `appendAndPrune` preserves the configured limits. -/
theorem appendAndPrune_limits (s : Summarizer) (w : Window) (m : Message) :
    (appendAndPrune s w m).trigger_limit = w.trigger_limit ∧
    (appendAndPrune s w m).target_limit = w.target_limit :=
  pruneState_limits s (appendMessage w m)

/-- Processing any message sequence keeps the window at or below the
trigger. -/
theorem runWindow_length_le (s : Summarizer) :
    ∀ (msgs : List Message) (w : Window),
      w.target_limit ≤ w.trigger_limit →
      w.messages.length ≤ w.trigger_limit →
      (runWindow s w msgs).messages.length ≤ w.trigger_limit
  | [], w, _, hw => hw
  | m :: rest, w, h2, hw => by
    unfold runWindow
    simp only [List.foldl_cons]
    obtain ⟨ht, hg⟩ := appendAndPrune_limits s w m
    have := runWindow_length_le s rest (appendAndPrune s w m)
      (by rw [ht, hg]; exact h2)
      (by rw [ht]; exact appendAndPrune_length_le s w m h2 hw)
    rw [ht] at this
    exact this

/-- C1. For every trigger/target pair with `1 ≤ target ≤ trigger` and any
summarizer: immediately after a compaction (the window exceeded the
trigger) the window holds exactly `target` messages — whether or not the
summarizer succeeded — and for every sequence of appended messages
starting from an empty window the count never exceeds the trigger after
pruning runs. -/
theorem window_never_exceeds_trigger (trigger target : Nat)
    (h1 : 1 ≤ target) (h2 : target ≤ trigger) (s : Summarizer) :
    (∀ w : Window, w.trigger_limit = trigger → w.target_limit = target →
        trigger < w.messages.length →
        (pruneState s w).messages.length = target) ∧
    ∀ msgs : List Message,
      (runWindow s { messages := [], moving_summary_buffer := "",
                     trigger_limit := trigger, target_limit := target }
          msgs).messages.length ≤ trigger := by
  constructor
  · intro w htr htg hlen
    rw [pruneState_messages_length, htr, htg, if_pos hlen,
      if_pos (by omega)]
  · intro msgs
    exact runWindow_length_le s msgs _ h2 (by simp)

/-- A summarization collaborator that always succeeds. -/
def constSummarizer : Summarizer := fun _ _ => some "summary"

/-- Witness for C1 at `trigger = 2`, `target = 1`, three appended
messages: the final window length is at most 2, and a window of 3
messages compacts to exactly 1. -/
theorem window_never_exceeds_trigger_witness :
    (pruneState constSummarizer
        { messages := [⟨"human", "a"⟩, ⟨"ai", "b"⟩, ⟨"human", "c"⟩],
          moving_summary_buffer := "", trigger_limit := 2,
          target_limit := 1 }).messages.length = 1 ∧
    (runWindow constSummarizer
        { messages := [], moving_summary_buffer := "",
          trigger_limit := 2, target_limit := 1 }
        [⟨"human", "a"⟩, ⟨"ai", "b"⟩, ⟨"human", "c"⟩]).messages.length ≤ 2 :=
  ⟨(window_never_exceeds_trigger 2 1 (by decide) (by decide)
      constSummarizer).1 _ rfl rfl (by decide),
   (window_never_exceeds_trigger 2 1 (by decide) (by decide)
      constSummarizer).2 _⟩

/-! ### C7: message chunking -/

theorem joinLines_append_single (xs : List (List Char)) (l : List Char) :
    joinLines (xs ++ [l]) =
      if xs = [] then l else joinLines xs ++ '\n' :: l := by
  induction xs with
  | nil => rfl
  | cons x xs ih =>
    rcases xs with _ | ⟨x', xs'⟩
    · rfl
    · simp only [List.cons_append]
      rw [joinLines]
      rw [List.cons_append] at ih
      rw [ih]
      rw [if_neg (by simp), if_neg (by simp)]
      rw [joinLines]
      simp [List.append_assoc]

theorem joinLines_append_single_length (xs : List (List Char))
    (l : List Char) :
    (joinLines (xs ++ [l])).length =
      if xs = [] then l.length
      else (joinLines xs).length + 1 + l.length := by
  rw [joinLines_append_single]
  split_ifs
  · rfl
  · simp only [List.length_append, List.length_cons]
    omega

/-- When the candidate already fits, the tail just extends `current`. -/
theorem splitStepTail_inv (limit : Nat) (st : SplitState) (line : List Char)
    (hchunks : ∀ c ∈ st.chunks, c.length ≤ limit + 4)
    (hcand : (joinLines (st.current ++ [line])).length ≤ limit) :
    SplitInvariant limit (splitStepTail limit st line) := by
  unfold splitStepTail
  rw [if_neg (by rintro ⟨hgt, -⟩; omega)]
  exact ⟨hcand, hchunks⟩

/-- `flush()` emits a chunk at most `limit + 4` long and restarts
`current` empty or with a single reopening fence line. -/
theorem flushState_inv (limit : Nat) (st : SplitState)
    (hcur : (joinLines st.current).length ≤ limit)
    (hchunks : ∀ c ∈ st.chunks, c.length ≤ limit + 4) :
    (∀ c ∈ (flushState st).chunks, c.length ≤ limit + 4) ∧
    ((flushState st).current = [] ∨ (flushState st).current = [fenceLine]) := by
  unfold flushState
  by_cases h0 : st.current = []
  · rw [if_pos h0]
    exact ⟨hchunks, Or.inl h0⟩
  · rw [if_neg h0]
    refine ⟨?_, ?_⟩
    · intro c hc
      rcases List.mem_append.mp hc with h | h
      · exact hchunks c h
      · simp only [List.mem_singleton] at h
        subst h
        by_cases hic : st.inCode = true
        · rw [if_pos hic, joinLines_append_single_length, if_neg h0]
          have h3 : fenceLine.length = 3 := rfl
          omega
        · rw [if_neg hic]
          omega
    · by_cases hic : st.inCode = true <;> simp [hic]

/-- The loop body keeps the invariant when the line cannot overflow a
fragment on its own. -/
theorem splitStepCore_inv (limit : Nat) (st : SplitState) (line : List Char)
    (hlen : line.length + 4 ≤ limit)
    (hcur : (joinLines st.current).length ≤ limit)
    (hchunks : ∀ c ∈ st.chunks, c.length ≤ limit + 4) :
    SplitInvariant limit (splitStepCore limit st line) := by
  unfold splitStepCore
  by_cases h1 : (joinLines (st.current ++ [line])).length > limit ∧
      st.current ≠ []
  · rw [if_pos h1]
    obtain ⟨hch', hcur'⟩ := flushState_inv limit st hcur hchunks
    apply splitStepTail_inv limit _ line hch'
    rcases hcur' with h | h <;> rw [h]
    · show (joinLines [line]).length ≤ limit
      show line.length ≤ limit
      omega
    · rw [joinLines_append_single_length, if_neg (by simp)]
      have h3 : (joinLines [fenceLine]).length = 3 := rfl
      omega
  · rw [if_neg h1]
    apply splitStepTail_inv limit st line hchunks
    by_cases h2 : st.current = []
    · rw [h2]
      show (joinLines [line]).length ≤ limit
      show line.length ≤ limit
      omega
    · by_cases hgt : (joinLines (st.current ++ [line])).length > limit
      · exact absurd ⟨hgt, h2⟩ h1
      · omega

theorem splitStep_inv (limit : Nat) (st : SplitState) (line : List Char)
    (hlen : line.length + 4 ≤ limit) (hinv : SplitInvariant limit st) :
    SplitInvariant limit (splitStep limit st line) := by
  obtain ⟨hcur, hchunks⟩ := hinv
  unfold splitStep
  by_cases hf : startsWithFence line = true
  · rw [if_pos hf]
    exact splitStepCore_inv limit _ line hlen hcur hchunks
  · rw [if_neg hf]
    exact splitStepCore_inv limit _ line hlen hcur hchunks

theorem splitFold_inv (limit : Nat) :
    ∀ (lines : List (List Char)) (st : SplitState),
      (∀ l ∈ lines, l.length + 4 ≤ limit) → SplitInvariant limit st →
      SplitInvariant limit (lines.foldl (splitStep limit) st)
  | [], st, _, hinv => hinv
  | l :: rest, st, hlines, hinv => by
    simp only [List.foldl_cons]
    exact splitFold_inv limit rest _
      (fun l' hl' => hlines l' (List.mem_cons_of_mem _ hl'))
      (splitStep_inv limit st l (hlines l (List.mem_cons_self _ _)) hinv)

/-- C7, counterexample. Both halves of the claim fail on the code. With
`limit = 10` and `text = "` ``` `\nabcdef\nxy"`, the first fragment is
`"` ``` `\nabcdef\n` ``` `"`, 14 characters long — the injected closing
fence pushes it past the limit. With `limit = 12` and a fenced block
spanning two split points, the fence toggle happens before `flush()`
consumes the fence line, so fragments come out fence-unbalanced (an odd
number of fence lines): the block is not correctly closed/reopened across
the boundary. -/
theorem split_for_telegram_counterexample :
    (¬ ∀ c ∈ split_for_telegram ("```\nabcdef\nxy".toList) 10,
        c.length ≤ 10) ∧
    (¬ ∀ c ∈ split_for_telegram ("abc\ndef\ngh\n```\ncode\n```".toList) 12,
        chunkBalanced c) := by
  constructor
  · intro h
    have := h ("```\nabcdef\n```".toList) (by decide)
    revert this
    decide
  · intro h
    have := h ("abc\ndef\ngh\n```".toList) (by decide)
    unfold chunkBalanced at this
    rw [Nat.even_iff] at this
    revert this
    decide

/-- C7, amended. When every line of the text is at most `limit − 4`
characters, every fragment is at most `limit + 4` characters (the
injected closing fence can add up to 4, so fragments may still exceed
`limit` itself); and on the spec's scenario of a fenced block spanning
split points (splits triggered by non-fence lines inside the block), the
fragment ending inside the block is closed with a fence and the next
fragment is reopened with a fence. -/
theorem split_fragment_bounds (text : List Char) (limit : Nat)
    (hline : ∀ l ∈ pySplitlines text, l.length + 4 ≤ limit) :
    (∀ c ∈ split_for_telegram text limit, c.length ≤ limit + 4) ∧
    split_for_telegram ("ab\n```\ncd\nefghij\nkl\n```\nmn".toList) 12 =
      ["ab\n```\ncd\n```".toList, "```\nefghij\n```".toList,
       "```\nkl\n```".toList, "mn".toList] := by
  constructor
  · intro c hc
    have hinv : SplitInvariant limit
        ((pySplitlines text).foldl (splitStep limit)
          { chunks := [], current := [], inCode := false }) :=
      splitFold_inv limit (pySplitlines text) _ hline
        ⟨by simp [joinLines], by simp⟩
    obtain ⟨hcur, hchunks⟩ := hinv
    unfold split_for_telegram at hc
    set st := (pySplitlines text).foldl (splitStep limit)
      { chunks := [], current := [], inCode := false } with hst
    by_cases h2 : st.current ≠ []
    · rw [if_pos h2] at hc
      rcases List.mem_append.mp hc with h | h
      · exact hchunks c h
      · simp only [List.mem_singleton] at h
        subst h
        by_cases hic : st.inCode = true
        · rw [if_pos hic, joinLines_append_single_length, if_neg h2]
          have h3 : fenceLine.length = 3 := rfl
          omega
        · rw [if_neg hic]
          omega
    · rw [if_neg h2] at hc
      exact hchunks c hc
  · decide

/-- Witness for C7 (amended): in a text whose lines are all at most
`12 − 4 = 8` characters, the first emitted fragment (13 characters, past
the raw limit because of the injected closing fence) is within
`12 + 4 = 16` characters. -/
theorem split_fragment_bounds_witness :
    ("ab\n```\ncd\n```".toList).length ≤ 12 + 4 :=
  (split_fragment_bounds ("ab\n```\ncd\nefghij\nkl\n```\nmn".toList) 12
    (by decide)).1 ("ab\n```\ncd\n```".toList) (by decide)

end Chack
